import Mathlib

set_option maxHeartbeats 1000000

namespace VulkanObjectGen

/-! Shallow embedding of `generate_rust.py`, the Python-dataclass to Rust
code generator of the vulkan-object repository.  Python `ast` nodes are
embedded as inductives, the override tables as association lists, and the
string-building code as functions on `List String` / `String`. -/

/-- Binary operators of the Python `ast` module as far as the generator
inspects them: `ast.BitOr` is acted upon, every other operator falls
through to the final `UNKNOWN` case of `parse_type`. -/
inductive PyOp where
  | bitOr
  | otherOp

/-- Embedding of the Python `ast` expression nodes that `parse_type` and
`extract_classes` consult: names, `None` / string / other constants,
subscripts, binary operations, tuples and calls. -/
inductive PyExpr where
  | name (id : String)
  | constNone
  | constStr (s : String)
  | constOther
  | subscript (value : PyExpr) (slice : PyExpr)
  | binOp (left : PyExpr) (op : PyOp) (right : PyExpr)
  | tuple (elts : List PyExpr)
  | call (func : PyExpr)

/-- Embedding of the Python `ast` statement nodes the extractor visits.
`other` stands for any other statement kind and carries the statements
nested inside it, since `ast.walk` descends into every node. -/
inductive PyStmt where
  | classDef (name : String) (bases : List PyExpr) (decorators : List PyExpr)
      (body : List PyStmt)
  | assign (targets : List PyExpr)
  | annAssign (target : PyExpr) (ann : PyExpr)
  | other (children : List PyStmt)

/-- Table `FIELD_TYPE_OVERRIDES`: type overrides for known Python inconsistencies,
keyed by `(class name, field name)`. -/
def FIELD_TYPE_OVERRIDES : List ((String × String) × String) :=
  [ (("Flag", "aliases"), "Option<Vec<String>>"),
    (("SyncSupport", "queues"), "Option<Vec<String>>"),
    (("SyncSupport", "stages"), "Option<Vec<Flag>>"),
    (("SyncEquivalent", "stages"), "Option<Vec<Flag>>"),
    (("SyncEquivalent", "accesses"), "Option<Vec<Flag>>"),
    (("VulkanObject", "headerVersion"), "String"),
    (("Param", "alias"), "Option<String>"),
    (("Constant", "value"), "ConstantValue") ]

/-- Lookup `FIELD_TYPE_OVERRIDES.get((class_name, field_name))` of the source. -/
def fieldTypeOverride (className fieldName : String) : Option String :=
  (FIELD_TYPE_OVERRIDES.find? (fun p => decide (p.1 = (className, fieldName)))).map
    (fun p => p.2)

/-- Table `BOXED_FIELDS`: fields that need `Box<>` for recursive types. -/
def BOXED_FIELDS : List (String × String) := [("Handle", "parent")]

/-- Table `INT_TYPE_OVERRIDES`: fields where `int` maps to specific Rust types. -/
def INT_TYPE_OVERRIDES : List ((String × String) × String) :=
  [ (("EnumField", "value"), "i64"),
    (("Flag", "value"), "u64") ]

/-- Lookup `INT_TYPE_OVERRIDES.get((class_name, field_name))` of the source. -/
def intTypeOverride (className fieldName : String) : Option String :=
  (INT_TYPE_OVERRIDES.find? (fun p => decide (p.1 = (className, fieldName)))).map
    (fun p => p.2)

def RESERVED_KEYWORDS : List String := ["type", "struct", "const"]

/-- Step `node.value.id if isinstance(node.value, ast.Name) else
str(node.value)` of the source's subscript case: the `repr` string of a
non-name node can never equal `"list"` or `"dict"`, so it is embedded as a
fixed placeholder. -/
def subscriptBase : PyExpr → String
  | .name id => id
  | _ => "<ast object repr>"

/-- Structural part of `parse_type` of the source, for a field whose
`FIELD_TYPE_OVERRIDES` lookup missed.  The source re-evaluates that lookup
at the top of every recursive call, but every recursive call passes the
same `(class_name, field_name)` pair, so within one annotation the lookup
misses everywhere once it missed at the top; the lookup is therefore
hoisted into the `parse_type` wrapper below.  `Except.error` models a
raised Python exception (the source indexes `node.slice.elts[0]` /
`elts[1]` and raises `IndexError` when the tuple is too short); every
fall-through path of the source returns `"UNKNOWN"`. -/
def parseTypeStructural (className fieldName : String) :
    PyExpr → Except String String
  | .constNone => .ok "None"
  | .name n =>
    if n == "str" then .ok "String"
    else if n == "bool" then .ok "bool"
    else if n == "int" then .ok ((intTypeOverride className fieldName).getD "u32")
    else if n == "float" then .ok "f64"
    else .ok n
  | .subscript value slice =>
    let base := subscriptBase value
    if base == "list" then do
      let inner ← parseTypeStructural className fieldName slice
      .ok ("Vec<" ++ inner ++ ">")
    else if base == "dict" then
      match slice with
      | .tuple (e0 :: rest) => do
        let key ← parseTypeStructural className fieldName e0
        match rest with
        | e1 :: _ => do
          let val ← parseTypeStructural className fieldName e1
          .ok ("IndexMap<" ++ key ++ ", " ++ val ++ ">")
        | [] => .error "IndexError: tuple index out of range"
      | .tuple [] => .error "IndexError: tuple index out of range"
      | _ => .ok "UNKNOWN"
    else .ok "UNKNOWN"
  | .binOp left op right =>
    match op with
    | .bitOr => do
      let l ← parseTypeStructural className fieldName left
      let r ← parseTypeStructural className fieldName right
      if r == "None" then
        if l == "int" && (className == "Constant" && fieldName == "value") then
          .ok "ConstantValue"
        else if (className, fieldName) ∈ BOXED_FIELDS then
          .ok ("Option<Box<" ++ l ++ ">>")
        else
          .ok ("Option<" ++ l ++ ">")
      else if l == "int" && r == "float" then .ok "ConstantValue"
      else if l == "str" && r == "None" then .ok "Option<String>"
      else .ok "UNKNOWN"
    | _ => .ok "UNKNOWN"
  | .constStr s =>
    if (className, fieldName) ∈ BOXED_FIELDS then .ok ("Option<Box<" ++ s ++ ">>")
    else .ok s
  | _ => .ok "UNKNOWN"

/-- Function `parse_type` of the source: convert a Python type annotation
to a Rust type; the explicit override wins over all structural rules. -/
def parse_type (node : PyExpr) (className fieldName : String) :
    Except String String :=
  match fieldTypeOverride className fieldName with
  | some override => .ok override
  | none => parseTypeStructural className fieldName node

/-- Scan of `re.sub(r"([a-z])([A-Z])", r"\1_\2", name)`: insert an
underscore between a lowercase letter immediately followed by an uppercase
letter, scanning left to right without overlap.  `p` is the pending
character and the flag records whether `p` may start a match (it may not
when it was consumed as the uppercase half of the previous match). -/
def snakeAux : Char → Bool → List Char → List Char
  | p, _, [] => [p]
  | p, usable, c :: rest =>
    if usable && p.isLower && c.isUpper then p :: '_' :: snakeAux c false rest
    else p :: snakeAux c true rest

def snakeSub : List Char → List Char
  | [] => []
  | c :: rest => snakeAux c true rest

/-- Function `to_snake_case` of the source: the regex substitution followed by
`.lower()`; all identifiers involved are ASCII, for which `.lower()` is a
character-wise map. -/
def to_snake_case (name : String) : String :=
  String.mk ((snakeSub name.data).map Char.toLower)

/-- Python `str.title()` restricted to ASCII input: a word is a maximal run
of letters; the first letter of each word is uppercased, the following
letters lowercased, non-letters are kept as word separators. -/
def pyTitleAux : Bool → List Char → List Char
  | _, [] => []
  | prevCased, c :: cs =>
    if c.isAlpha then
      (if prevCased then c.toLower else c.toUpper) :: pyTitleAux true cs
    else
      c :: pyTitleAux false cs

def pyTitle (s : String) : String :=
  String.mk (pyTitleAux false s.data)

/-- Step `v.replace("_", " ")` of the source: the pattern is a single
character, so the replacement is a character-wise map. -/
def underscoreToSpace (s : String) : String :=
  String.mk (s.data.map (fun c => if c = '_' then ' ' else c))

/-- Step `.replace(" ", "")` of the source: drop every space character. -/
def dropSpaces (s : String) : String :=
  String.mk (s.data.filter (fun c => c != ' '))

/-- Rust variant identifier of one Python enum variant:
`v.replace("_", " ").title().replace(" ", "")`, with the source's
(no-op) re-assignment for the literal result `"None"`. -/
def rustVariantName (v : String) : String :=
  let rn := dropSpaces (pyTitle (underscoreToSpace v))
  if rn == "None" then "None" else rn

/-- The variant lines of one emitted Rust enum: ordinals are assigned by
`enumerate(values, 1)` of the source. -/
def enumVariantLines (values : List String) : List String :=
  (List.enumFrom 1 values).map
    (fun p => "    " ++ rustVariantName p.2 ++ " = " ++ toString p.1 ++ ",")

/-- The emitted identifier of a record field: the reserved-keyword suffix
replaces the snake-case conversion result. -/
def emittedIdent (fieldName : String) : String :=
  if RESERVED_KEYWORDS.contains fieldName then fieldName ++ "_"
  else to_snake_case fieldName

/-- The lines emitted for one record field: optional serde rename line,
then the field declaration line.  The rename decision is taken on the
snake-case conversion result before the reserved-keyword suffix replaces
it, exactly as in the source. -/
def fieldLines (fieldName rustType : String) : List String :=
  let snake := to_snake_case fieldName
  let needsRename := snake != fieldName || RESERVED_KEYWORDS.contains fieldName
  (if needsRename then ["    #[serde(rename = \"" ++ fieldName ++ "\")]"] else []) ++
    ["    pub " ++ emittedIdent fieldName ++ ": " ++ rustType ++ ","]

/-- The import preamble of the generated file. -/
def preambleLines : List String :=
  [ "use indexmap::IndexMap;",
    "use serde::\x7bDeserialize, Serialize\x7d;",
    "use serde_repr::\x7bDeserialize_repr, Serialize_repr\x7d;",
    "" ]

/-- The special `ConstantValue` enum emitted for the `int | float` union. -/
def constantValueLines : List String :=
  [ "#[derive(Clone, Debug, Deserialize, Serialize)]",
    "#[serde(untagged)]",
    "pub enum ConstantValue \x7b",
    "    Int(u64),",
    "    Float(f64),",
    "\x7d",
    "" ]

/-- The block emitted for one extracted Python enum. -/
def enumBlock (name : String) (values : List String) : List String :=
  [ "#[derive(Clone, Copy, Debug, Deserialize_repr, Eq, PartialEq, Serialize_repr)]",
    "#[repr(u8)]",
    "pub enum " ++ name ++ " \x7b" ] ++
  enumVariantLines values ++
  [ "\x7d", "" ]

/-- The block emitted for one extracted dataclass; `VideoStd` additionally
derives `Default` (inserted at index 2 of the derive list). -/
def recordBlock (name : String) (fields : List (String × String)) : List String :=
  let derives :=
    if name == "VideoStd" then ["Clone", "Debug", "Default", "Deserialize", "Serialize"]
    else ["Clone", "Debug", "Deserialize", "Serialize"]
  [ "#[derive(" ++ String.intercalate ", " derives ++ ")]",
    "pub struct " ++ name ++ " \x7b" ] ++
  (fields.map (fun p => fieldLines p.1 p.2)).flatten ++
  [ "\x7d", "" ]

/-- Python-dict lookup for a dict built by comprehension from an
association list: the last binding of a key wins. -/
def lookupLast {α : Type} (l : List (String × α)) (key : String) : Option α :=
  match l with
  | [] => none
  | p :: rest =>
    match lookupLast rest key with
    | some v => some v
    | none => if p.1 == key then some p.2 else none

/-- The fixed declaration order (`order` in `generate_rust` of the source). -/
def order : List String :=
  [ "FeatureRequirement", "Extension", "Version", "Legacy", "Handle",
    "ExternSync", "Param", "CommandScope", "Command", "Member", "Struct",
    "EnumField", "Enum", "Flag", "Bitmask", "Flags", "ConstantValue",
    "Constant", "FormatComponent", "FormatPlane", "Format", "SyncSupport",
    "SyncEquivalent", "SyncStage", "SyncAccess", "SyncPipelineStage",
    "SyncPipeline", "SpirvEnables", "Spirv", "VideoRequiredCapabilities",
    "VideoFormat", "VideoProfileMember", "VideoProfiles", "VideoCodec",
    "VideoStdHeader", "VideoStd", "VulkanObject" ]

/-- The lines contributed by one entry of `order`: the synthetic
`ConstantValue` enum, an extracted enum, an extracted dataclass, or
nothing when the name is absent from both collections. -/
def emitName (dcs : List (String × List (String × String)))
    (enums : List (String × List String)) (name : String) : List String :=
  if name == "ConstantValue" then constantValueLines
  else
    match lookupLast enums name with
    | some values => enumBlock name values
    | none =>
      match lookupLast dcs name with
      | some fields => recordBlock name fields
      | none => []

/-- All lines of the generated file, in emission order. -/
def generateRustLines (dcs : List (String × List (String × String)))
    (enums : List (String × List String)) : List String :=
  preambleLines ++ (order.map (emitName dcs enums)).flatten

/-- Function `generate_rust` of the source: `"\n".join(lines)`. -/
def generate_rust (dcs : List (String × List (String × String)))
    (enums : List (String × List String)) : String :=
  String.intercalate "\n" (generateRustLines dcs enums)

/-- The statements nested inside one statement, as `ast.walk` descends. -/
def stmtChildren : PyStmt → List PyStmt
  | .classDef _ _ _ body => body
  | .other children => children
  | _ => []

/-- Breadth-first walk over statements, in the order `ast.walk` yields the
`ClassDef` nodes of the source tree. -/
def walkStmts : List PyStmt → List PyStmt
  | [] => []
  | s :: rest => s :: walkStmts (rest ++ stmtChildren s)
termination_by l => sizeOf l
decreasing_by
  have happ : ∀ (l1 l2 : List PyStmt), sizeOf (l1 ++ l2) + 1 = sizeOf l1 + sizeOf l2 := by
    intro l1 l2
    induction l1 with
    | nil => simp; omega
    | cons a t ih => simp at ih ⊢; omega
  have hchild : sizeOf (stmtChildren s) < sizeOf s := by
    have hpos : ∀ (l : List PyExpr), 0 < sizeOf l := by
      intro l; cases l <;> simp
    have hpe : ∀ (e : PyExpr), 0 < sizeOf e := by
      intro e; cases e <;> simp
    cases s with
    | classDef n b d body => simp [stmtChildren]
    | assign targets => simpa [stmtChildren] using hpos targets
    | annAssign t a =>
      have := hpe t
      simp [stmtChildren]
      omega
    | other children => simp [stmtChildren]
  have h2 := happ rest (stmtChildren s)
  simp at h2 ⊢
  omega

/-- The enum-variant extraction loop of `extract_classes`: for each
`Assign` statement take `item.targets[0].id`; a missing or non-`Name`
first target raises (`IndexError` / `AttributeError`). -/
def enumValues (body : List PyStmt) : Except String (List String) :=
  body.foldlM
    (fun acc item =>
      match item with
      | .assign targets =>
        match targets with
        | PyExpr.name id :: _ => .ok (acc ++ [id])
        | _ :: _ => .error "AttributeError: no attribute id"
        | [] => .error "IndexError: list index out of range"
      | _ => .ok acc)
    []

/-- The dataclass-field extraction loop of `extract_classes`: annotated
assignments whose target is a `Name` are parsed with `parse_type`. -/
def classFields (className : String) (body : List PyStmt) :
    Except String (List (String × String)) :=
  body.foldlM
    (fun acc item =>
      match item with
      | .annAssign (PyExpr.name fieldName) ann => do
        let rt ← parse_type ann className fieldName
        .ok (acc ++ [(fieldName, rt)])
      | _ => .ok acc)
    []

/-- Is the decorator the `dataclass` marker, either bare or as a call. -/
def isDataclassDecorator : PyExpr → Bool
  | .name id => id == "dataclass"
  | .call f =>
    match f with
    | .name id => id == "dataclass"
    | _ => false
  | _ => false

/-- Is the base class literally the name `Enum`. -/
def isEnumBase : PyExpr → Bool
  | .name id => id == "Enum"
  | _ => false

/-- The loop body of `extract_classes` for one walked node: an enum-kind
class extends the enum collection, otherwise a dataclass-marked class
extends the dataclass collection, otherwise the node is ignored. -/
def processStmt (acc : List (String × List (String × String)) × List (String × List String))
    (node : PyStmt) :
    Except String (List (String × List (String × String)) × List (String × List String)) :=
  match node with
  | .classDef name bases decorators body =>
    let isDc := decorators.any isDataclassDecorator
    let isEnum := bases.any isEnumBase
    if isEnum then do
      let vs ← enumValues body
      .ok (acc.1, acc.2 ++ [(name, vs)])
    else if isDc then do
      let fs ← classFields name body
      .ok (acc.1 ++ [(name, fs)], acc.2)
    else .ok acc
  | _ => .ok acc

/-- Function `extract_classes` of the source: walk the tree and classify every
`ClassDef` into the dataclass or enum collection. -/
def extract_classes (stmts : List PyStmt) :
    Except String (List (String × List (String × String)) × List (String × List String)) :=
  (walkStmts stmts).foldlM processStmt ([], [])

/-- Extraction followed by emission, the transformation whose determinism
the spec asserts (file I/O of `main` stays outside the model). -/
def pipeline (stmts : List PyStmt) : Except String String :=
  (extract_classes stmts).map (fun p => generate_rust p.1 p.2)

/-! Helper lemmas shared by the claim theorems. -/

/-- Bind on a successful `Except` computation runs the continuation. -/
theorem except_bind_ok {ε α β : Type} (a : α) (k : α → Except ε β) :
    ((Except.ok a : Except ε α) >>= k) = k a := rfl

/-- Bind on a failed `Except` computation propagates the error. -/
theorem except_bind_error {ε α β : Type} (e : ε) (k : α → Except ε β) :
    ((Except.error e : Except ε α) >>= k) = Except.error e := rfl

/-- Map over a successful `Except` computation. -/
theorem except_map_ok {ε α β : Type} (g : α → β) (a : α) :
    (Except.ok a : Except ε α).map g = Except.ok (g a) := rfl

/-- Map over a failed `Except` computation. -/
theorem except_map_error {ε α β : Type} (g : α → β) (e : ε) :
    (Except.error e : Except ε α).map g = Except.error e := rfl

/-- Unfolding equation of `parseTypeStructural` at a `None` literal. -/
theorem pts_constNone (c f : String) :
    parseTypeStructural c f .constNone = Except.ok "None" := by
  with_unfolding_all rfl

/-- Unfolding equation of `parseTypeStructural` at a binary `|` union. -/
theorem pts_binOp_bitOr (c f : String) (left right : PyExpr) :
    parseTypeStructural c f (.binOp left .bitOr right) = (do
      let l ← parseTypeStructural c f left
      let r ← parseTypeStructural c f right
      if r == "None" then
        if l == "int" && (c == "Constant" && f == "value") then
          Except.ok "ConstantValue"
        else if (c, f) ∈ BOXED_FIELDS then
          Except.ok ("Option<Box<" ++ l ++ ">>")
        else
          Except.ok ("Option<" ++ l ++ ">")
      else if l == "int" && r == "float" then Except.ok "ConstantValue"
      else if l == "str" && r == "None" then Except.ok "Option<String>"
      else Except.ok "UNKNOWN") := by
  with_unfolding_all rfl

/-- Appending an underscore always changes a string (length increases). -/
theorem append_underscore_ne (s : String) : s ++ "_" ≠ s := by
  intro h
  have h2 := congrArg String.length h
  rw [String.length_append] at h2
  have h3 : ("_" : String).length = 1 := rfl
  rw [h3] at h2
  omega

/-- Entries whose contribution is empty can be filtered out of a
map-flatten without changing the result. -/
theorem flatten_filter_of_nil {f : String → List String} {p : String → Bool}
    (h : ∀ n, p n = false → f n = []) :
    ∀ (l : List String), (l.map f).flatten = ((l.filter p).map f).flatten := by
  intro l
  induction l with
  | nil => rfl
  | cons a t ih =>
    cases hpa : p a with
    | true => simp [List.filter_cons, hpa, ih]
    | false => simp [List.filter_cons, hpa, ih, h a hpa]

/-- Indexing into `List.enumFrom`. -/
theorem enumFrom_get?_eq {α : Type} :
    ∀ (l : List α) (n i : Nat),
      (List.enumFrom n l).get? i = (l.get? i).map (fun a => (n + i, a)) := by
  intro l
  induction l with
  | nil => intro n i; simp [List.enumFrom]
  | cons a t ih =>
    intro n i
    cases i with
    | zero => simp [List.enumFrom]
    | succ j =>
      have hadd : n + 1 + j = n + (j + 1) := by omega
      simp [List.enumFrom, ih (n + 1) j, hadd]

/-- Removing all bindings of a different key does not change a
last-binding-wins lookup. -/
theorem lookupLast_filter_ne {α : Type} (nm key : String) (hne : key ≠ nm) :
    ∀ (l : List (String × α)),
      lookupLast (l.filter (fun p => !(p.1 == nm))) key = lookupLast l key := by
  intro l
  induction l with
  | nil => rfl
  | cons p rest ih =>
    rw [List.filter_cons]
    by_cases hp : p.1 = nm
    · simp only [hp, beq_self_eq_true, Bool.not_true, if_neg (by simp : ¬(false = true))]
      rw [ih, lookupLast]
      cases hrest : lookupLast rest key with
      | some v => rfl
      | none =>
        have hpk : (p.1 == key) = false := by
          rw [hp]
          exact beq_eq_false_iff_ne.mpr (fun hk => hne hk.symm)
        simp [hpk]
    · have hkeep : (!(p.1 == nm)) = true := by
        simp [beq_eq_false_iff_ne.mpr hp]
      rw [if_pos hkeep, lookupLast, lookupLast, ih]

/-- A name that is neither the synthetic entry nor present in either
collection contributes no lines. -/
theorem emitName_eq_nil (dcs : List (String × List (String × String)))
    (enums : List (String × List String)) (nm : String)
    (hcv : nm ≠ "ConstantValue")
    (he : lookupLast enums nm = none)
    (hd : lookupLast dcs nm = none) :
    emitName dcs enums nm = [] := by
  simp [emitName, beq_eq_false_iff_ne.mpr hcv, he, hd]

/-! Claim theorems. -/

/-- C1: the claim says parsing the annotation `int | float` always yields
the synthetic numeric union regardless of the enclosing field and
independently of the override tables.  The code disagrees: `parse_type`
renders `int` to `"u32"` and `float` to `"f64"` before the union branch
compares them against the literals `"int"` / `"float"`, so that branch can
never fire and a non-overridden field annotated `int | float` falls
through to `"UNKNOWN"`; the one field that does get the union type,
`(Constant, value)`, gets it from the override table. -/
theorem c1_int_float_eval :
    parse_type (.binOp (.name "int") .bitOr (.name "float")) "Struct" "size" =
      .ok "UNKNOWN" ∧
    parse_type (.binOp (.name "int") .bitOr (.name "float")) "Constant" "value" =
      .ok "ConstantValue" ∧
    fieldTypeOverride "Constant" "value" = some "ConstantValue" :=
  ⟨rfl, rfl, rfl⟩

/-- C4: the claim says a boxed field's rendered type contains exactly one
`Box` wrapper and one optional layer; on the annotation `"Handle" | None`
for `(Handle, parent)` the code applies the boxing rule twice (once in the
string-literal branch, once in the union branch), producing a doubly
boxed, doubly optional type. -/
theorem c4_double_boxing_eval :
    parse_type (.binOp (.constStr "Handle") .bitOr .constNone) "Handle" "parent" =
      .ok "Option<Box<Option<Box<Handle>>>>" ∧
    ("Handle", "parent") ∈ BOXED_FIELDS :=
  ⟨rfl, by decide⟩

/-- C9: the transformation is deterministic — extraction followed by
emission is a pure function of the source statements, so identical inputs
give identical outputs. -/
theorem c9_deterministic :
    ∀ (s1 s2 : List PyStmt), s1 = s2 → pipeline s1 = pipeline s2 := by
  intro s1 s2 h
  rw [h]

theorem c9_deterministic_witness :
    pipeline [PyStmt.classDef "Handle" [] [PyExpr.name "dataclass"] []] =
      pipeline [PyStmt.classDef "Handle" [] [PyExpr.name "dataclass"] []] :=
  c9_deterministic _ _ rfl

/-- C10: a class that both derives from `Enum` and carries the `dataclass`
decorator is classified as an enum: the extraction step extends only the
enum collection and leaves the dataclass collection unchanged, so no
declaration contributes to both collections. -/
theorem c10_enum_wins :
    ∀ (acc : List (String × List (String × String)) × List (String × List String))
      (name : String) (bases decorators : List PyExpr) (body : List PyStmt),
      bases.any isEnumBase = true →
      decorators.any isDataclassDecorator = true →
      processStmt acc (.classDef name bases decorators body) =
        (enumValues body).map (fun vs => (acc.1, acc.2 ++ [(name, vs)])) := by
  intro acc name bases decorators body hE hD
  cases h : enumValues body with
  | error e =>
    simp only [processStmt, hE, if_true, h, Except.map]
    rfl
  | ok vs =>
    simp only [processStmt, hE, if_true, h, Except.map]
    rfl

theorem c10_enum_wins_witness :
    processStmt ([], [])
        (.classDef "Color" [.name "Enum"] [.name "dataclass"] [.assign [.name "RED"]]) =
      Except.ok ([], [("Color", ["RED"])]) :=
  (c10_enum_wins ([], []) "Color" [.name "Enum"] [.name "dataclass"]
    [.assign [.name "RED"]] rfl rfl).trans rfl

/-- C5: for every type expression `T` and every field without an explicit
type override, not in the boxed set and not the designated `int`/`float`
union case, parsing `T | None` yields the optional wrapper around the
parse of `T`. -/
theorem c5_optional_wrapper :
    ∀ (t : PyExpr) (c f : String),
      fieldTypeOverride c f = none →
      (c, f) ∉ BOXED_FIELDS →
      (c, f) ≠ ("Constant", "value") →
      parse_type (.binOp t .bitOr .constNone) c f =
        (parse_type t c f).map (fun l => "Option<" ++ l ++ ">") := by
  intro t c f h1 h2 h3
  have hcv : (c == "Constant" && f == "value") = false := by
    by_cases hcc : c = "Constant"
    · have hf : f ≠ "value" := fun hf => h3 (by rw [hcc, hf])
      simp [beq_eq_false_iff_ne.mpr hf]
    · simp [beq_eq_false_iff_ne.mpr hcc]
  simp only [parse_type, h1]
  rw [pts_binOp_bitOr]
  cases hpt : parseTypeStructural c f t with
  | error e => simp [hpt, except_bind_error, except_map_error]
  | ok l =>
    simp [hpt, pts_constNone, except_bind_ok, except_map_ok, hcv, h2]

theorem c5_optional_wrapper_witness :
    parse_type (.binOp (.name "bool") .bitOr .constNone) "Member" "len" =
      (parse_type (.name "bool") "Member" "len").map (fun l => "Option<" ++ l ++ ">") :=
  c5_optional_wrapper (.name "bool") "Member" "len" rfl (by decide) (by decide)

/-- C6: emitted enum ordinals are exactly `1..n` in declared variant
order — the line for the variant at index `i` carries ordinal `i + 1` and
that variant's converted identifier — and the variant literally named
`none` is emitted with the identifier `None`. -/
theorem c6_enum_ordinals :
    rustVariantName "none" = "None" ∧
    ∀ (values : List String) (i : Nat) (h : i < values.length),
      (enumVariantLines values).get? i =
        some ("    " ++ rustVariantName (values.get ⟨i, h⟩) ++ " = " ++
          toString (i + 1) ++ ",") := by
  constructor
  · rfl
  · intro values i h
    unfold enumVariantLines
    rw [List.get?_map, enumFrom_get?_eq, List.get?_eq_get h]
    have hadd : 1 + i = i + 1 := by omega
    simp [hadd]

theorem c6_enum_ordinals_witness :
    (enumVariantLines ["color", "depth_stencil"]).get? 1 = some "    DepthStencil = 2," :=
  (c6_enum_ordinals.2 ["color", "depth_stencil"] 1 (by decide)).trans rfl

/-- C7: a serde rename annotation is attached to a record field exactly
when the emitted identifier differs from the declared field name (by
snake-case conversion or by reserved-keyword suffixing), and the rename
always carries the original declared name as the serialization key. -/
theorem c7_rename_iff :
    ∀ (fn ty : String),
      fieldLines fn ty =
        (if emittedIdent fn = fn then
          ["    pub " ++ emittedIdent fn ++ ": " ++ ty ++ ","]
        else
          ["    #[serde(rename = \"" ++ fn ++ "\")]",
           "    pub " ++ emittedIdent fn ++ ": " ++ ty ++ ","]) := by
  intro fn ty
  by_cases hmem : fn ∈ RESERVED_KEYWORDS
  · have hne : fn ++ "_" ≠ fn := append_underscore_ne fn
    simp [fieldLines, emittedIdent, hmem, hne]
  · by_cases hsn : to_snake_case fn = fn
    · simp [fieldLines, emittedIdent, hmem, hsn]
    · simp [fieldLines, emittedIdent, hmem, hsn]

/-- C2: refutation at a concrete input — a field annotation that matches
no rule parses to `UNKNOWN`, and the generator renders the literal
`UNKNOWN` into the output text instead of aborting: the run of
`generate_rust` on the extracted data is a total function that still
produces the full file. -/
theorem c2_counterexample :
    parse_type .constOther "Handle" "bad" = .ok "UNKNOWN" ∧
    generateRustLines [("Handle", [("bad", "UNKNOWN")])] [] =
      preambleLines ++ (recordBlock "Handle" [("bad", "UNKNOWN")] ++ constantValueLines) ∧
    recordBlock "Handle" [("bad", "UNKNOWN")] =
      ["#[derive(Clone, Debug, Deserialize, Serialize)]",
       "pub struct Handle \x7b",
       "    pub bad: UNKNOWN,",
       "\x7d",
       ""] :=
  ⟨rfl, rfl, rfl⟩

/-- C2 (amended): a field whose annotation parses to the Unknown
descriptor is not detected — the emitted text contains the placeholder
`UNKNOWN` for that field and the run completes normally instead of
aborting. -/
theorem c2_unknown_rendered :
    ∀ (dcs : List (String × List (String × String)))
      (enums : List (String × List String))
      (nm : String) (fields : List (String × String)) (fn : String),
      nm ∈ order → lookupLast enums nm = none → nm ≠ "ConstantValue" →
      lookupLast dcs nm = some fields → (fn, "UNKNOWN") ∈ fields →
      ("    pub " ++ emittedIdent fn ++ ": " ++ "UNKNOWN" ++ ",") ∈
        generateRustLines dcs enums := by
  intro dcs enums nm fields fn h1 h2 h3 h4 h5
  unfold generateRustLines
  apply List.mem_append_right
  rw [List.mem_flatten]
  refine ⟨emitName dcs enums nm, List.mem_map_of_mem _ h1, ?_⟩
  have he : emitName dcs enums nm = recordBlock nm fields := by
    simp [emitName, h2, h4, beq_eq_false_iff_ne.mpr h3]
  rw [he]
  unfold recordBlock
  apply List.mem_append_left
  apply List.mem_append_right
  rw [List.mem_flatten]
  refine ⟨fieldLines fn "UNKNOWN", List.mem_map_of_mem _ h5, ?_⟩
  unfold fieldLines
  apply List.mem_append_right
  exact List.mem_singleton_self _

theorem c2_unknown_rendered_witness :
    ("    pub " ++ emittedIdent "bad" ++ ": " ++ "UNKNOWN" ++ ",") ∈
      generateRustLines [("Handle", [("bad", "UNKNOWN")])] [] :=
  c2_unknown_rendered [("Handle", [("bad", "UNKNOWN")])] [] "Handle"
    [("bad", "UNKNOWN")] "bad" (by decide) rfl (by decide) rfl (by decide)

/-- C3: refutation at a concrete input — with both extracted collections
empty, every order entry except the synthetic `ConstantValue` is absent
from both collections, yet the run produces the full normal output
(preamble plus the synthetic enum) instead of failing with no output. -/
theorem c3_counterexample :
    ("Handle" ∈ order ∧
      lookupLast ([] : List (String × List (String × String))) "Handle" = none ∧
      lookupLast ([] : List (String × List String)) "Handle" = none) ∧
    generateRustLines [] [] = preambleLines ++ constantValueLines :=
  ⟨⟨by decide, rfl, rfl⟩, rfl⟩

/-- C3 (amended): a declaration-order entry that is absent from both
extracted collections (and is not the synthetic `ConstantValue` entry) is
silently skipped — it contributes no lines, and the output equals what the
remaining entries produce; no error is raised. -/
theorem c3_missing_entry_skipped :
    ∀ (dcs : List (String × List (String × String)))
      (enums : List (String × List String)) (nm : String),
      nm ∈ order → lookupLast dcs nm = none → lookupLast enums nm = none →
      nm ≠ "ConstantValue" →
      emitName dcs enums nm = [] ∧
      generateRustLines dcs enums =
        preambleLines ++
          ((order.filter (fun n => !(n == nm))).map (emitName dcs enums)).flatten := by
  intro dcs enums nm hin hd he hcv
  have h0 : emitName dcs enums nm = [] := emitName_eq_nil dcs enums nm hcv he hd
  refine ⟨h0, ?_⟩
  unfold generateRustLines
  congr 1
  apply flatten_filter_of_nil
  intro n hpn
  have hb : (n == nm) = true := by simpa using hpn
  rw [eq_of_beq hb, h0]

theorem c3_missing_entry_skipped_witness :
    emitName ([] : List (String × List (String × String)))
        ([] : List (String × List String)) "Handle" = [] ∧
    generateRustLines [] [] =
      preambleLines ++
        ((order.filter (fun n => !(n == "Handle"))).map
          (emitName ([] : List (String × List (String × String)))
            ([] : List (String × List String)))).flatten :=
  c3_missing_entry_skipped [] [] "Handle" (by decide) rfl rfl (by decide)

/-- C8: the generated output is the preamble followed by exactly one block
per declaration-order entry that names the synthetic `ConstantValue`
union, an extracted enum, or an extracted record, in declaration-order
sequence; and a record or enum whose name is absent from the declaration
order never influences the output — removing all its entries from the
collections leaves the output unchanged. -/
theorem c8_declaration_order :
    ∀ (dcs : List (String × List (String × String)))
      (enums : List (String × List String)),
      (generateRustLines dcs enums =
        preambleLines ++
          ((order.filter (fun n =>
              n == "ConstantValue" || (lookupLast enums n).isSome ||
                (lookupLast dcs n).isSome)).map (emitName dcs enums)).flatten) ∧
      ∀ nm, nm ∉ order →
        generateRustLines (dcs.filter (fun p => !(p.1 == nm)))
            (enums.filter (fun p => !(p.1 == nm))) =
          generateRustLines dcs enums := by
  intro dcs enums
  constructor
  · unfold generateRustLines
    congr 1
    apply flatten_filter_of_nil
    intro n hpn
    simp only [Bool.or_eq_false_iff] at hpn
    obtain ⟨⟨ha, hb⟩, hc⟩ := hpn
    have hcv : n ≠ "ConstantValue" := ne_of_beq_false ha
    have he : lookupLast enums n = none := by
      cases hx : lookupLast enums n with
      | none => rfl
      | some v => rw [hx] at hb; simp at hb
    have hd : lookupLast dcs n = none := by
      cases hx : lookupLast dcs n with
      | none => rfl
      | some v => rw [hx] at hc; simp at hc
    exact emitName_eq_nil dcs enums n hcv he hd
  · intro nm hnm
    unfold generateRustLines
    congr 1
    apply congrArg List.flatten
    apply List.map_congr_left
    intro n hn
    have hne : n ≠ nm := fun h => hnm (h ▸ hn)
    simp only [emitName, lookupLast_filter_ne nm n hne]

theorem c8_declaration_order_witness :
    generateRustLines
        ([("Zzz", [("x", "u32")])].filter (fun p => !(p.1 == "Zzz")))
        (([] : List (String × List String)).filter (fun p => !(p.1 == "Zzz"))) =
      generateRustLines [("Zzz", [("x", "u32")])] [] :=
  (c8_declaration_order [("Zzz", [("x", "u32")])] []).2 "Zzz" (by decide)

end VulkanObjectGen
